import Mathlib

/-!
Verification of the release-calendar aggregation pipeline of
src/data_fetcher.py: the time normalizer, the source adapters for the
domestic and global tracks, the fallback aggregator, the title
deduplicator and the calendar merger.

Conventions of the embedding. Instants are epoch seconds (Int), as in the
source's time.time() arithmetic; the third-party permissive parser
arrow.get is abstracted as a function argument of type TimeVal → Option
Int (none models a parse exception); HTTP fetches are inputs of type
Except Unit _, where Except.error models a transport failure, a JSON
error or any other exception raised while obtaining the response, and
Except.ok carries the decoded response. Python dict lookups with a
default are total fields; lookups that may be absent or falsy are Option
fields. Python character classes are modelled on the character ranges
the code names explicitly: the regex word class is rendered as ASCII
alphanumerics plus the underscore, next to the explicitly written CJK
range 4E00-9FA5; the titles handled in the proofs stay inside this
fragment.
-/

/-- Calendar date and wall-clock time, the result of converting an epoch
instant to a civil representation (what arrow formats). -/
structure DT where
  year : Int
  month : Nat
  day : Nat
  hour : Nat
  minute : Nat
  second : Nat
deriving DecidableEq

/-- Civil date from a day count since 1970-01-01, by the standard
era-based conversion (as used by civil-time libraries); the input may be
negative. -/
def civilFromDays (z0 : Int) : Int × Nat × Nat :=
  let z : Int := z0 + 719468
  let era : Int := (if 0 ≤ z then z else z - 146096) / 146097
  let doe : Nat := (z - era * 146097).toNat
  let yoe : Nat := (doe - doe / 1460 + doe / 36524 - doe / 146096) / 365
  let y : Int := (yoe : Int) + era * 400
  let doy : Nat := doe - (365 * yoe + yoe / 4 - yoe / 100)
  let mp : Nat := (5 * doy + 2) / 153
  let d : Nat := doy - (153 * mp + 2) / 5 + 1
  let m : Nat := if mp < 10 then mp + 3 else mp - 9
  (if m ≤ 2 then y + 1 else y, m, d)

/-- Civil date and time from an epoch-seconds instant (floor division into
days, remainder into the time of day). -/
def civilFromEpoch (e : Int) : DT :=
  let days : Int := (if 0 ≤ e then e else e - 86399) / 86400
  let sod : Nat := (e - days * 86400).toNat
  let c := civilFromDays days
  ⟨c.1, c.2.1, c.2.2, sod / 3600, sod % 3600 / 60, sod % 60⟩

/-- Decimal digit character for a digit value; values outside 0..9 cannot
arise at the call sites (every argument is taken modulo 10). -/
def digitChar : Nat → Char
  | 0 => '0' | 1 => '1' | 2 => '2' | 3 => '3' | 4 => '4'
  | 5 => '5' | 6 => '6' | 7 => '7' | 8 => '8' | _ => '9'

/-- Zero-padded two-digit decimal rendering, as arrow's MM, DD, HH, mm and
ss tokens produce for calendar and clock fields. -/
def pad2 (n : Nat) : List Char :=
  [digitChar (n / 10 % 10), digitChar (n % 10)]

/-- Zero-padded four-digit decimal rendering, as arrow's YYYY token
produces; Python datetime years satisfy 1 ≤ year ≤ 9999, so four digits
always suffice on the reachable domain. -/
def pad4 (n : Nat) : List Char :=
  [digitChar (n / 1000 % 10), digitChar (n / 100 % 10),
   digitChar (n / 10 % 10), digitChar (n % 10)]

/-- Character list of the canonical format string YYYY-MM-DD HH:mm:ss for
a civil date and time. -/
def formatChars (dt : DT) : List Char :=
  pad4 dt.year.toNat ++ '-' :: pad2 dt.month ++ '-' :: pad2 dt.day ++
    ' ' :: pad2 dt.hour ++ ':' :: pad2 dt.minute ++ ':' :: pad2 dt.second

/-- Fixed offset of the target timezone Asia/Shanghai (UTC+8, no daylight
saving), applied by the to Asia-Shanghai conversion in the source. -/
def toShanghai (e : Int) : Int := e + 28800

/-- Canonical timestamp string of an instant, rendered on the Asia/Shanghai
wall clock; models dt.to Asia-Shanghai followed by the YYYY-MM-DD HH:mm:ss
format call of the source. -/
def formatShanghai (e : Int) : String :=
  ⟨formatChars (civilFromEpoch (toShanghai e))⟩

/-- Values normalize_time accepts: a numeric epoch (int or float), a
string, or a datetime-like value carrying its instant. -/
inductive TimeVal
  | num (e : Int)
  | str (s : String)
  | dtv (e : Int)
deriving DecidableEq

/-- Abstraction of the third-party permissive parser arrow.get: the parsed
instant in epoch seconds, or none when parsing raises. -/
abbrev ArrowParser := TimeVal → Option Int

/-- Embedding of normalize_time (src/data_fetcher.py lines 78-92). Both the
numeric branch and the string branch of the source call arrow.get, here
the abstract parser argument; the parsed instant is converted to
Asia/Shanghai and formatted canonically. When parsing raises, the source
catches the exception and returns the current instant formatted on the
same Asia/Shanghai wall clock, with now the run's current instant. -/
def normalize_time (p : ArrowParser) (now : Int) (v : TimeVal) : String :=
  match p v with
  | some e => formatShanghai e
  | none => formatShanghai now

/-- Decides whether a string has the canonical shape YYYY-MM-DD HH:mm:ss:
nineteen characters, digits in the date and time positions, and the fixed
separators in between. -/
def isCanonFmt : List Char → Bool
  | [y1, y2, y3, y4, s1, m1, m2, s2, d1, d2, s3, h1, h2, s4, n1, n2, s5, c1, c2] =>
    y1.isDigit && y2.isDigit && y3.isDigit && y4.isDigit && s1 == '-' &&
    m1.isDigit && m2.isDigit && s2 == '-' && d1.isDigit && d2.isDigit &&
    s3 == ' ' && h1.isDigit && h2.isDigit && s4 == ':' && n1.isDigit &&
    n2.isDigit && s5 == ':' && c1.isDigit && c2.isDigit
  | _ => false

/-- Lexicographic order on character lists by code point, the comparison
Python applies to strings; used for the release-date sort. -/
def lexLe : List Char → List Char → Bool
  | [], _ => true
  | _ :: _, [] => false
  | a :: as, b :: bs =>
    if a.toNat < b.toNat then true
    else if b.toNat < a.toNat then false
    else lexLe as bs

/-- Decides whether the first list is a leading segment of the second. -/
def leadSeg : List Char → List Char → Bool
  | [], _ => true
  | _ :: _, [] => false
  | a :: ps, b :: ls => a == b && leadSeg ps ls

/-- Decides whether pat occurs contiguously inside l (Python's in operator
on strings). -/
def subSeq (pat : List Char) : List Char → Bool
  | [] => leadSeg pat []
  | c :: ls => leadSeg pat (c :: ls) || subSeq pat ls

/-- Substring test on strings, Python's pat in s. -/
def hasSub (pat s : String) : Bool := subSeq pat.data s.data

/-- CJK ideograph range 4E00-9FA5 written explicitly in the dedup regex. -/
def isCJK (c : Char) : Bool :=
  0x4e00 ≤ c.toNat && c.toNat ≤ 0x9fa5

/-- Characters the dedup regex keeps: the word class (alphanumerics and
the underscore) or the explicit CJK range; everything else is removed by
re.sub of the class complement. -/
def isWordChar (c : Char) : Bool :=
  c.isAlphanum || c == '_' || isCJK c

/-- Title normalization used for deduplication (src/data_fetcher.py line
300): re.sub removes every character outside the word class and the CJK
range, then lower() lowercases the remainder. -/
def clean_title (s : String) : String :=
  ⟨(s.data.filter isWordChar).map Char.toLower⟩

/-- Modelled from the spec: title normalization exactly as the spec words
it, keeping only alphanumerics and CJK ideographs, then lowercasing. It
differs from clean_title on the underscore, which the code's word class
keeps but the spec's wording removes. -/
def spec_clean_title (s : String) : String :=
  ⟨(s.data.filter (fun c => c.isAlphanum || isCJK c)).map Char.toLower⟩

/-- Canonical release record shape produced by every adapter
(src/data_fetcher.py, the dict literals of fetch_cn_releases and
fetch_global_releases). -/
structure ReleaseRecord where
  id : String
  title : String
  icon : String
  region : String
  status : String
  release_date : String
  platform : String
  url : String
  source : String
deriving DecidableEq

/-- TapTap app object fields the adapter reads: the numeric app id, the
title, the icon original url, and stat.update_time (0 when absent). -/
structure TapApp where
  id : Nat
  title : String
  icon_original_url : String
  stat_update_time : Int
deriving DecidableEq

/-- TapTap list item: start_time (0 when absent, the dict default), the
optional type_label, and the app object (none models a missing or empty
app, which the source skips with continue). -/
structure TapItem where
  start_time : Int
  type_label : Option String
  app : Option TapApp
deriving DecidableEq

/-- Decoded TapTap response: the success flag and data.list. -/
structure TapResp where
  success : Bool
  list : List TapItem
deriving DecidableEq

/-- Candidate timestamp of a TapTap item: start_time, or, when that is
falsy (zero), the app's stat.update_time. -/
def candidate_ts (item : TapItem) (app : TapApp) : Int :=
  if item.start_time ≠ 0 then item.start_time else app.stat_update_time

/-- Status label of a TapTap item (src/data_fetcher.py lines 164-169): the
test-list source reads type_label with default 测试, the hot-list source
uses the fixed label 新游; a label containing 删档 collapses to 删档测试,
else one containing 公测 collapses to 公测. -/
def tapStatus (useLabel : Bool) (item : TapItem) : String :=
  let s0 := if useLabel then item.type_label.getD "测试" else "新游"
  if hasSub "删档" s0 then "删档测试"
  else if hasSub "公测" s0 then "公测"
  else s0

/-- Shaping of one TapTap item (the loop body, src/data_fetcher.py lines
148-181): skip when the app object is missing or empty; skip when the
candidate timestamp is older than 30 days before now; otherwise build the
record with the cn_tap_ namespaced id. -/
def shapeTapItem (p : ArrowParser) (now : Int) (useLabel : Bool)
    (item : TapItem) : Option ReleaseRecord :=
  match item.app with
  | none => none
  | some app =>
    let ts := candidate_ts item app
    if ts < now - 30 * 86400 then none
    else some {
      id := "cn_tap_" ++ toString app.id
      title := app.title
      icon := app.icon_original_url
      region := "CN"
      status := tapStatus useLabel item
      release_date := normalize_time p now (.num ts)
      platform := "Mobile"
      url := "https://www.taptap.cn/app/" ++ toString app.id
      source := "TapTap" }

/-- Contribution of one TapTap sub-source: a raised exception (the
sub-source try block) contributes nothing, as does a response whose
success flag is false; a non-200 status also appends nothing in the
source and is observationally the same empty contribution. -/
def contribTap (p : ArrowParser) (now : Int) (useLabel : Bool) :
    Except Unit TapResp → List ReleaseRecord
  | .error _ => []
  | .ok resp =>
    if resp.success then resp.list.filterMap (shapeTapItem p now useLabel)
    else []

/-- The 3733 kaifu adapter (src/data_fetcher.py lines 189-254). Its body
applies the name BeautifulSoup (line 200), but the imports of the file
(lines 1-8) bind requests, json, time, os, re, feedparser, arrow and
datetime only, so every invocation raises NameError there, before any
record is appended; the surrounding except block catches it. -/
def fetch3733 : Except Unit (List ReleaseRecord) := Except.error ()

/-- Records the 3733 adapter adds to the accumulator: none, since its
fetch always raises and the handler swallows the exception. -/
def contrib3733 : List ReleaseRecord :=
  match fetch3733 with
  | .error _ => []
  | .ok rs => rs

/-- Date part YYYY-MM-DD of the current Asia/Shanghai wall clock. -/
def nowDateStr (now : Int) : String :=
  let dt := civilFromEpoch (toShanghai now)
  ⟨pad4 dt.year.toNat ++ '-' :: pad2 dt.month ++ '-' :: pad2 dt.day⟩

/-- Year part YYYY of the current Asia/Shanghai wall clock. -/
def nowYearStr (now : Int) : String :=
  ⟨pad4 (civilFromEpoch (toShanghai now)).year.toNat⟩

/-- Embedding of the 3733 relative-time parsing (src/data_fetcher.py lines
219-231): a string with a colon and no hyphen is a bare HH:mm combined
with the current Asia/Shanghai date; a string with a hyphen of at most
five characters is a bare MM-DD combined with the current year and the
fixed time 10:00:00; a longer hyphenated string is taken as a full date;
anything else falls back to the formatted current instant. The arrow
format call interpolates these strings through a format pattern, and
digits, colons and hyphens are not format tokens, so for such strings
the interpolation is verbatim. -/
def kaifu_time (now : Int) (time_str : String) : String :=
  if time_str.data.contains ':' && !(time_str.data.contains '-') then
    nowDateStr now ++ " " ++ time_str ++ ":00"
  else if time_str.data.contains '-' then
    if time_str.length ≤ 5 then nowYearStr now ++ "-" ++ time_str ++ " 10:00:00"
    else time_str ++ " 10:00:00"
  else formatShanghai now

/-- App Store RSS entry fields the fallback adapter reads: the raw im:id
token, the name label, the image labels, the category attributes, the
optional im:releaseDate label and the link href. -/
structure ASEntry where
  im_id : String
  im_name : String
  im_images : List String
  category_term : String
  category_label : String
  category_im_id : String
  im_releaseDate : Option String
  link_href : String
deriving DecidableEq

/-- Strict category filter of the fallback adapter (src/data_fetcher.py
line 274): keep an entry when Game occurs in the category term, or 游戏
occurs in the localized label, or the category id is 6014. -/
def isGameEntry (e : ASEntry) : Bool :=
  hasSub "Game" e.category_term || hasSub "游戏" e.category_label ||
    e.category_im_id == "6014"

/-- Record built for one kept App Store entry (src/data_fetcher.py lines
281-291): the id is the raw im:id with no adapter namespace, the icon is
the last image label, and the release date goes through normalize_time. -/
def mkASRec (p : ArrowParser) (now : Int) (e : ASEntry) (rd : String)
    (icon : String) : ReleaseRecord :=
  { id := e.im_id
    title := e.im_name
    icon := icon
    region := "CN"
    status := "已上架"
    release_date := normalize_time p now (.str rd)
    platform := "iOS"
    url := e.link_href
    source := "AppStore" }

/-- Entry loop of the App Store fallback (src/data_fetcher.py lines
266-291). Entries failing the category filter are skipped. A missing
release date makes arrow.get raise, as does an unparseable one, and
indexing the last image of an empty image list raises IndexError; each of
those exceptions aborts the whole fallback block (its except clause),
keeping the records appended before it, which the list built so far
models by ending in the empty continuation. A parsed date is kept exactly
when it is strictly newer than 30 days before now. -/
def processAS (p : ArrowParser) (now : Int) : List ASEntry → List ReleaseRecord
  | [] => []
  | e :: rest =>
    if !(isGameEntry e) then processAS p now rest
    else
      match e.im_releaseDate with
      | none => []
      | some rd =>
        match p (.str rd) with
        | none => []
        | some ts =>
          if now - 30 * 86400 < ts then
            match e.im_images.getLast? with
            | none => []
            | some icon => mkASRec p now e rd icon :: processAS p now rest
          else processAS p now rest

/-- Contribution of the App Store fallback once invoked: an exception
while fetching or decoding contributes nothing; otherwise the entry loop
runs. -/
def contribAS (p : ArrowParser) (now : Int) :
    Except Unit (List ASEntry) → List ReleaseRecord
  | .error _ => []
  | .ok entries => processAS p now entries

/-- Title deduplication loop (src/data_fetcher.py lines 296-303) with the
set of already seen normalized titles threaded explicitly: the first
record of each normalized-title class is kept in order, later ones are
dropped whole. -/
def dedupeGo (seen : List String) : List ReleaseRecord → List ReleaseRecord
  | [] => []
  | r :: rs =>
    if clean_title r.title ∈ seen then dedupeGo seen rs
    else r :: dedupeGo (clean_title r.title :: seen) rs

/-- Deduplication by normalized title, first seen wins. -/
def dedupe (rs : List ReleaseRecord) : List ReleaseRecord := dedupeGo [] rs

/-- Raw domestic accumulator after adapters 1-3 (both TapTap sub-sources
and the always-empty 3733 contribution), before the sufficiency check. -/
def cnRaw (p : ArrowParser) (now : Int) (tapTest tapHot : Except Unit TapResp) :
    List ReleaseRecord :=
  contribTap p now true tapTest ++ contribTap p now false tapHot ++ contrib3733

/-- Embedding of fetch_cn_releases (src/data_fetcher.py lines 121-306):
run the TapTap test-list and hot-list sub-sources and the 3733 adapter in
order into one accumulator; invoke the App Store fallback exactly when
fewer than five records accumulated; deduplicate by normalized title at
the end. -/
def fetch_cn_releases (p : ArrowParser) (now : Int)
    (tapTest tapHot : Except Unit TapResp)
    (appStore : Except Unit (List ASEntry)) : List ReleaseRecord :=
  let results := cnRaw p now tapTest tapHot
  let results2 :=
    if results.length < 5 then results ++ contribAS p now appStore else results
  dedupe results2

/-- FreeToGame catalog entry fields the global adapter reads. -/
structure FtgGame where
  id : Nat
  title : String
  thumbnail : String
  status : String
  release_date : Option String
  platform : Option String
  game_url : String
deriving DecidableEq

/-- Shaping of one FreeToGame entry (src/data_fetcher.py lines 106-116):
the global_ namespaced id, status Released exactly when the source status
is Live, the release date through normalize_time with the literal default
2024-01-01 when absent, platform defaulted to PC. -/
def shapeGlobal (p : ArrowParser) (now : Int) (g : FtgGame) : ReleaseRecord :=
  { id := "global_" ++ toString g.id
    title := g.title
    icon := g.thumbnail
    region := "Global"
    status := if g.status == "Live" then "Released" else "Beta"
    release_date := normalize_time p now (.str (g.release_date.getD "2024-01-01"))
    platform := g.platform.getD "PC"
    url := g.game_url
    source := "FreeToGame" }

/-- Embedding of fetch_global_releases (src/data_fetcher.py lines 94-119):
one catalog fetch; an exception contributes nothing (a non-200 status
also appends nothing); otherwise the first thirty entries are shaped in
order, with no freshness filter and no deduplication. -/
def fetch_global_releases (p : ArrowParser) (now : Int) :
    Except Unit (List FtgGame) → List ReleaseRecord
  | .error _ => []
  | .ok games => (games.take 30).map (shapeGlobal p now)

/-- Comparator of the calendar sort: a before b when a's release_date is
lexicographically at least b's, the stable descending order Python's
sort with reverse true produces on the key. -/
def recLe (a b : ReleaseRecord) : Bool :=
  lexLe b.release_date.data a.release_date.data

/-- Embedding of merge_calendars (src/data_fetcher.py lines 308-316):
concatenate the domestic and global lists and stable-sort by the
release_date string, newest first. -/
def merge_calendars (cn_data global_data : List ReleaseRecord) :
    List ReleaseRecord :=
  (cn_data ++ global_data).mergeSort recLe

/-- Release-calendar assembly of main (src/data_fetcher.py lines 371-373):
the domestic and global tracks merged. -/
def buildCalendar (p : ArrowParser) (now : Int)
    (tapTest tapHot : Except Unit TapResp)
    (appStore : Except Unit (List ASEntry))
    (globalResp : Except Unit (List FtgGame)) : List ReleaseRecord :=
  merge_calendars (fetch_cn_releases p now tapTest tapHot appStore)
    (fetch_global_releases p now globalResp)

/-- Constantly failing parser: a value arrow.get raises on. -/
def pNone : ArrowParser := fun _ => none

/-- Constantly succeeding parser yielding the instant one second after the
epoch. -/
def pOne : ArrowParser := fun _ => some 1

/-- Minimal record literal used in concrete runs. -/
def sampleRec (i t : String) : ReleaseRecord := ⟨i, t, "", "CN", "", "", "", "", ""⟩

theorem digitChar_isDigit (n : Nat) : (digitChar (n % 10)).isDigit = true := by
  have h : n % 10 < 10 := Nat.mod_lt _ (by decide)
  exact (by decide : ∀ m, m < 10 → (digitChar m).isDigit = true) _ h

theorem isCanonFmt_formatChars (dt : DT) : isCanonFmt (formatChars dt) = true := by
  simp [formatChars, pad4, pad2, isCanonFmt, digitChar_isDigit]

theorem lexLe_refl (l : List Char) : lexLe l l = true := by
  induction l with
  | nil => rfl
  | cons a as ih => simp [lexLe, Nat.lt_irrefl, ih]

theorem lexLe_cons {x y : Char} {xs ys : List Char} :
    lexLe (x :: xs) (y :: ys) = true ↔
      x.toNat < y.toNat ∨ (x.toNat = y.toNat ∧ lexLe xs ys = true) := by
  rcases Nat.lt_trichotomy x.toNat y.toNat with h | h | h
  · simp [lexLe, h]
  · have h1 : ¬ x.toNat < y.toNat := by omega
    have h2 : ¬ y.toNat < x.toNat := by omega
    simp [lexLe, h1, h2, h]
  · have h1 : ¬ x.toNat < y.toNat := by omega
    simp only [lexLe, if_neg h1, if_pos h, Bool.false_eq_true, false_iff]
    rintro (h2 | ⟨h2, -⟩) <;> omega

theorem lexLe_total : ∀ (a b : List Char), (lexLe a b || lexLe b a) = true
  | [], _ => by simp [lexLe]
  | _ :: _, [] => by simp [lexLe]
  | x :: xs, y :: ys => by
    simp only [Bool.or_eq_true, lexLe_cons]
    rcases Nat.lt_trichotomy x.toNat y.toNat with h | h | h
    · exact Or.inl (Or.inl h)
    · rcases (Bool.or_eq_true _ _).mp (lexLe_total xs ys) with h2 | h2
      · exact Or.inl (Or.inr ⟨h, h2⟩)
      · exact Or.inr (Or.inr ⟨h.symm, h2⟩)
    · exact Or.inr (Or.inl h)

theorem lexLe_trans : ∀ (a b c : List Char),
    lexLe a b = true → lexLe b c = true → lexLe a c = true
  | [], _, _, _, _ => rfl
  | _ :: _, [], _, h, _ => absurd h (by simp [lexLe])
  | _ :: _, _ :: _, [], _, h => absurd h (by simp [lexLe])
  | x :: xs, y :: ys, z :: zs, h1, h2 => by
    rw [lexLe_cons] at h1 h2 ⊢
    rcases h1 with h1 | ⟨h1, h1t⟩ <;> rcases h2 with h2 | ⟨h2, h2t⟩
    · exact Or.inl (by omega)
    · exact Or.inl (by omega)
    · exact Or.inl (by omega)
    · exact Or.inr ⟨by omega, lexLe_trans xs ys zs h1t h2t⟩

theorem recLe_trans (a b c : ReleaseRecord) :
    recLe a b = true → recLe b c = true → recLe a c = true :=
  fun h1 h2 => lexLe_trans _ _ _ h2 h1

theorem recLe_total (a b : ReleaseRecord) : (recLe a b || recLe b a) = true :=
  lexLe_total _ _

/-- Pairwise holds on a filtered list when the relation holds between any
two elements satisfying the predicate. -/
theorem pairwise_filter_of_all {α : Type} (R : α → α → Prop) (p : α → Bool)
    (l : List α) (h : ∀ a b, p a = true → p b = true → R a b) :
    (l.filter p).Pairwise R := by
  induction l with
  | nil => simp
  | cons x xs ih =>
    by_cases hx : p x = true
    · rw [List.filter_cons_of_pos hx]
      exact List.Pairwise.cons (fun b hb => h x b hx (List.of_mem_filter hb)) ih
    · rw [List.filter_cons_of_neg hx]
      exact ih

theorem dedupeGo_notin_seen (seen : List String) (l : List ReleaseRecord) :
    ∀ r ∈ dedupeGo seen l, clean_title r.title ∉ seen := by
  induction l generalizing seen with
  | nil => simp [dedupeGo]
  | cons x xs ih =>
    intro r hr
    rw [dedupeGo] at hr
    split at hr
    · exact ih seen r hr
    · next hc =>
      rcases List.mem_cons.mp hr with rfl | h
      · exact hc
      · exact fun hmem => ih _ r h (List.mem_cons_of_mem _ hmem)

theorem dedupeGo_sublist (seen : List String) (l : List ReleaseRecord) :
    (dedupeGo seen l).Sublist l := by
  induction l generalizing seen with
  | nil => simp [dedupeGo]
  | cons x xs ih =>
    rw [dedupeGo]
    split
    · exact (ih seen).trans (List.sublist_cons_self x xs)
    · exact (ih _).cons₂ x

theorem dedupeGo_pairwise (seen : List String) (l : List ReleaseRecord) :
    (dedupeGo seen l).Pairwise
      (fun a b => clean_title a.title ≠ clean_title b.title) := by
  induction l generalizing seen with
  | nil => simp [dedupeGo]
  | cons x xs ih =>
    rw [dedupeGo]
    split
    · exact ih seen
    · refine List.Pairwise.cons ?_ (ih _)
      intro b hb he
      exact dedupeGo_notin_seen _ _ b hb (he ▸ List.mem_cons_self _ _)

theorem dedupeGo_covers (seen : List String) (l : List ReleaseRecord)
    (r : ReleaseRecord) (hr : r ∈ l) (hs : clean_title r.title ∉ seen) :
    ∃ q ∈ dedupeGo seen l, clean_title q.title = clean_title r.title := by
  induction l generalizing seen with
  | nil => cases hr
  | cons x xs ih =>
    rw [dedupeGo]
    rcases List.mem_cons.mp hr with heq | h
    · split
      · next hc => exact absurd (heq.symm ▸ hc) hs
      · exact ⟨x, List.mem_cons_self _ _, by rw [heq]⟩
    · split
      · next hc => exact ih seen h hs
      · next hc =>
        by_cases he : clean_title r.title = clean_title x.title
        · exact ⟨x, List.mem_cons_self _ _, he.symm⟩
        · have hs2 : clean_title r.title ∉ clean_title x.title :: seen := by
            intro hm
            rcases List.mem_cons.mp hm with h1 | h1
            · exact he h1
            · exact hs h1
          obtain ⟨q, hq, hq2⟩ := ih _ h hs2
          exact ⟨q, List.mem_cons_of_mem _ hq, hq2⟩

theorem dedupeGo_first (seen : List String) (l : List ReleaseRecord)
    (r : ReleaseRecord) (hr : r ∈ dedupeGo seen l) :
    l.find? (fun q => clean_title q.title == clean_title r.title) = some r := by
  induction l generalizing seen with
  | nil => simp [dedupeGo] at hr
  | cons x xs ih =>
    rw [dedupeGo] at hr
    split at hr
    · next hc =>
      have hnr := dedupeGo_notin_seen seen xs r hr
      have hne : ¬ (fun q => clean_title q.title == clean_title r.title) x = true := by
        simp only [beq_iff_eq]
        intro he
        exact hnr (he ▸ hc)
      rw [List.find?_cons_of_neg xs hne]
      exact ih seen hr
    · next hc =>
      rcases List.mem_cons.mp hr with rfl | h
      · exact List.find?_cons_of_pos _ (by simp)
      · have hnr := dedupeGo_notin_seen _ xs r h
        have hne : ¬ (fun q => clean_title q.title == clean_title r.title) x = true := by
          simp only [beq_iff_eq]
          intro he
          exact hnr (he ▸ List.mem_cons_self _ _)
        rw [List.find?_cons_of_neg xs hne]
        exact ih _ h

/-- Every record a TapTap sub-source shapes carries the cn_tap_ namespaced
id and the TapTap provenance tag. -/
theorem shapeTapItem_shape {p : ArrowParser} {now : Int} {ul : Bool}
    {item : TapItem} {r : ReleaseRecord}
    (h : shapeTapItem p now ul item = some r) :
    ∃ app, item.app = some app ∧ r.source = "TapTap" ∧
      r.id = "cn_tap_" ++ toString app.id := by
  unfold shapeTapItem at h
  cases ha : item.app with
  | none => rw [ha] at h; cases h
  | some app =>
    rw [ha] at h
    dsimp only at h
    by_cases hts : candidate_ts item app < now - 30 * 86400
    · rw [if_pos hts] at h; cases h
    · rw [if_neg hts] at h
      obtain rfl := (Option.some.injEq _ _).mp h
      exact ⟨app, rfl, rfl, rfl⟩

/-- Membership in a TapTap contribution comes from a shaped item of the
response list. -/
theorem mem_contribTap {p : ArrowParser} {now : Int} {ul : Bool}
    {t : Except Unit TapResp} {r : ReleaseRecord}
    (h : r ∈ contribTap p now ul t) :
    ∃ item, shapeTapItem p now ul item = some r := by
  cases t with
  | error u => simp [contribTap] at h
  | ok resp =>
    simp only [contribTap] at h
    by_cases hs : resp.success
    · rw [if_pos hs] at h
      obtain ⟨item, _, hi⟩ := List.mem_filterMap.mp h
      exact ⟨item, hi⟩
    · rw [if_neg hs] at h
      cases h

/-- Characterization of the App Store fallback output: every record of the
entry loop comes from a kept entry, one whose parsed release instant is
strictly newer than the 30-day cutoff, and is the record mkASRec builds
from it. -/
theorem mem_processAS {p : ArrowParser} {now : Int} :
    ∀ {entries : List ASEntry} {r : ReleaseRecord},
      r ∈ processAS p now entries →
      ∃ e ∈ entries, isGameEntry e = true ∧ ∃ rd ts icon,
        e.im_releaseDate = some rd ∧ p (.str rd) = some ts ∧
        now - 30 * 86400 < ts ∧ e.im_images.getLast? = some icon ∧
        r = mkASRec p now e rd icon
  | [], r, hr => by simp [processAS] at hr
  | e :: rest, r, hr => by
    rw [processAS] at hr
    split at hr
    · obtain ⟨e2, he2, hrest⟩ := mem_processAS hr
      exact ⟨e2, List.mem_cons_of_mem _ he2, hrest⟩
    · next hg =>
      have hg2 : isGameEntry e = true := by simpa using hg
      split at hr
      · cases hr
      · next rd hrd =>
        split at hr
        · cases hr
        · next ts hts =>
          split at hr
          · next hfresh =>
            split at hr
            · cases hr
            · next icon hicon =>
              rcases List.mem_cons.mp hr with heq | hmem
              · exact ⟨e, List.mem_cons_self _ _, hg2, rd, ts, icon,
                  hrd, hts, hfresh, hicon, heq⟩
              · obtain ⟨e2, he2, hrest⟩ := mem_processAS hmem
                exact ⟨e2, List.mem_cons_of_mem _ he2, hrest⟩
          · obtain ⟨e2, he2, hrest⟩ := mem_processAS hr
            exact ⟨e2, List.mem_cons_of_mem _ he2, hrest⟩

/-- Every record of the App Store fallback contribution carries the
AppStore provenance tag and the raw im:id as its id. -/
theorem mem_contribAS {p : ArrowParser} {now : Int}
    {a : Except Unit (List ASEntry)} {r : ReleaseRecord}
    (h : r ∈ contribAS p now a) :
    r.source = "AppStore" ∧ ∃ e ts rd, e.im_releaseDate = some rd ∧
      p (.str rd) = some ts ∧ now - 30 * 86400 < ts ∧ r.id = e.im_id ∧
      (∀ entries, a = Except.ok entries → e ∈ entries) := by
  cases a with
  | error u => simp [contribAS] at h
  | ok entries =>
    simp only [contribAS] at h
    obtain ⟨e, he, _, rd, ts, icon, hrd, hts, hfresh, _, heq⟩ := mem_processAS h
    subst heq
    exact ⟨rfl, e, ts, rd, hrd, hts, hfresh, rfl,
      fun entries2 hok => by cases hok; exact he⟩

/-- Membership in the domestic output factors through the raw accumulator
or the fallback contribution. -/
theorem mem_fetch_cn {p : ArrowParser} {now : Int}
    {t1 t2 : Except Unit TapResp} {a : Except Unit (List ASEntry)}
    {r : ReleaseRecord} (hr : r ∈ fetch_cn_releases p now t1 t2 a) :
    r ∈ contribTap p now true t1 ∨ r ∈ contribTap p now false t2 ∨
      r ∈ contribAS p now a := by
  simp only [fetch_cn_releases] at hr
  have hr2 := (dedupeGo_sublist [] _).subset hr
  have hraw : r ∈ cnRaw p now t1 t2 ∨ r ∈ contribAS p now a := by
    split at hr2
    · rcases List.mem_append.mp hr2 with h | h
      · exact Or.inl h
      · exact Or.inr h
    · exact Or.inl hr2
  rcases hraw with h | h
  · rcases List.mem_append.mp h with h2 | h2
    · rcases List.mem_append.mp h2 with h3 | h3
      · exact Or.inl h3
      · exact Or.inr (Or.inl h3)
    · simp [contrib3733, fetch3733] at h2
  · exact Or.inr (Or.inr h)

/-- TapTap item fixture with a fresh candidate timestamp. -/
def tapItemN (n : Nat) : TapItem := ⟨1, none, some ⟨n, "t" ++ toString n, "", 0⟩⟩

/-- TapTap response fixture holding five fresh items. -/
def tapFive : Except Unit TapResp :=
  Except.ok ⟨true, [tapItemN 1, tapItemN 2, tapItemN 3, tapItemN 4, tapItemN 5]⟩

/-- TapTap item fixture whose candidate timestamp is stale. -/
def tapOld : TapItem := ⟨1, none, some ⟨9, "old", "", 0⟩⟩

/-- Successful TapTap response carrying no items. -/
def tapEmptyOk : Except Unit TapResp := Except.ok ⟨true, []⟩

/-- FreeToGame fixture. -/
def ftgA : FtgGame := ⟨7, "Alpha", "", "Live", none, none, ""⟩

/-- FreeToGame fixtures whose titles coincide after normalization. -/
def ftgDup1 : FtgGame := ⟨1, "Game: Alpha!", "", "Live", none, none, ""⟩

/-- Second FreeToGame fixture of the duplicated-title pair. -/
def ftgDup2 : FtgGame := ⟨2, "game alpha", "", "Live", none, none, ""⟩

/-- App Store entry fixture with raw id 42. -/
def asEntry1 : ASEntry := ⟨"42", "Alpha", ["i"], "Games", "", "", some "2025-01-01", "u"⟩

/-- App Store entry fixture with raw id 9. -/
def asEntry2 : ASEntry := ⟨"9", "Beta", ["i"], "Games", "", "", some "2025-01-01", "u"⟩

/-- C1: for every parser behavior, current instant and input value,
normalize_time returns a string of the canonical YYYY-MM-DD HH:mm:ss
shape and is total, and whenever parsing fails it returns exactly the
current instant formatted on the canonical Asia/Shanghai (UTC+8) wall
clock instead of propagating an error. -/
theorem normalize_time_total (p : ArrowParser) (now : Int) (v : TimeVal) :
    isCanonFmt (normalize_time p now v).data = true ∧
    (p v = none → normalize_time p now v = formatShanghai now) := by
  constructor
  · rcases hpv : p v with - | e <;> simp only [normalize_time, hpv] <;>
      exact isCanonFmt_formatChars _
  · intro h
    simp [normalize_time, h]

/-- Witness: on an unparseable input the result is the formatted current
instant, and it has the canonical shape. -/
theorem normalize_time_total_witness :
    isCanonFmt (normalize_time pNone 0 (.str "not a date")).data = true ∧
    normalize_time pNone 0 (.str "not a date") = formatShanghai 0 :=
  ⟨(normalize_time_total pNone 0 (.str "not a date")).1,
   (normalize_time_total pNone 0 (.str "not a date")).2 rfl⟩

/-- C2: merge_calendars returns the concatenation of the two input lists
stably sorted by the release_date string in descending lexicographic
order: the output is a permutation of the concatenation with length the
sum of the input lengths, consecutive records descend in the release_date
order, and the records carrying any one key keep exactly their order in
the concatenation (stability), so nothing is added, dropped or
deduplicated across tracks. -/
theorem merge_calendars_spec (cn_data global_data : List ReleaseRecord) :
    (merge_calendars cn_data global_data).length =
        cn_data.length + global_data.length ∧
    (merge_calendars cn_data global_data).Perm (cn_data ++ global_data) ∧
    (merge_calendars cn_data global_data).Pairwise
      (fun a b => lexLe b.release_date.data a.release_date.data = true) ∧
    ∀ k : String,
      (merge_calendars cn_data global_data).filter
          (fun r => r.release_date == k) =
        (cn_data ++ global_data).filter (fun r => r.release_date == k) := by
  refine ⟨?_, ?_, ?_, ?_⟩
  · rw [merge_calendars, List.length_mergeSort, List.length_append]
  · exact List.mergeSort_perm _ _
  · exact List.sorted_mergeSort recLe_trans recLe_total _
  · intro k
    have hperm :
        ((merge_calendars cn_data global_data).filter
            (fun r => r.release_date == k)).Perm
          ((cn_data ++ global_data).filter (fun r => r.release_date == k)) :=
      (List.mergeSort_perm (cn_data ++ global_data) recLe).filter _
    have hpw : ((cn_data ++ global_data).filter
        (fun r => r.release_date == k)).Pairwise
          (fun a b => recLe a b = true) := by
      refine pairwise_filter_of_all _ _ _ ?_
      intro a b ha hb
      have ha2 : a.release_date = k := by simpa [beq_iff_eq] using ha
      have hb2 : b.release_date = k := by simpa [beq_iff_eq] using hb
      simp [recLe, ha2, hb2, lexLe_refl]
    have hsub : ((cn_data ++ global_data).filter
        (fun r => r.release_date == k)).Sublist
          (merge_calendars cn_data global_data) :=
      List.sublist_mergeSort recLe_trans recLe_total hpw (List.filter_sublist _)
    have hsub2 : ((cn_data ++ global_data).filter
        (fun r => r.release_date == k)).Sublist
          ((merge_calendars cn_data global_data).filter
            (fun r => r.release_date == k)) := by
      have h3 := hsub.filter (fun r => r.release_date == k)
      simpa only [List.filter_filter, Bool.and_self] using h3
    exact (hsub2.eq_of_length hperm.length_eq.symm).symm

/-- C3 counterexample: the titles a_b and ab are identical after the
normalization the claim words (remove every character that is neither
alphanumeric nor a CJK ideograph, then lowercase), yet the code keeps
both records, because the regex word class of the source also keeps the
underscore; so the claimed equivalence does not match the code. -/
theorem dedupe_spec_clean_counterexample :
    spec_clean_title "a_b" = spec_clean_title "ab" ∧
    dedupe [sampleRec "1" "a_b", sampleRec "2" "ab"] =
      [sampleRec "1" "a_b", sampleRec "2" "ab"] := by decide

/-- C3 amended: the dedup step keeps exactly the first record of each
equivalence class and preserves first-seen order, where two records are
equivalent when their titles are identical after removing every character
that is neither a word character (alphanumeric or underscore) nor a CJK
ideograph and then lowercasing; later duplicates are dropped entirely:
the output is a sublist of the input, its normalized titles are pairwise
distinct, every input record has a representative, and every kept record
is the first input record of its class. -/
theorem dedupe_first_seen (l : List ReleaseRecord) :
    (dedupe l).Sublist l ∧
    (dedupe l).Pairwise (fun a b => clean_title a.title ≠ clean_title b.title) ∧
    (∀ r ∈ l, ∃ q ∈ dedupe l, clean_title q.title = clean_title r.title) ∧
    (∀ r ∈ dedupe l,
      l.find? (fun q => clean_title q.title == clean_title r.title) = some r) :=
  ⟨dedupeGo_sublist [] l, dedupeGo_pairwise [] l,
   fun r hr => dedupeGo_covers [] l r hr (by simp),
   fun r hr => dedupeGo_first [] l r hr⟩

/-- Witness: on a two-record list with equivalent titles the first record
is kept as the representative of the class of the second. -/
theorem dedupe_first_seen_witness :
    ∃ q ∈ dedupe [sampleRec "1" "Game: Alpha!", sampleRec "2" "game alpha"],
      clean_title q.title = clean_title (sampleRec "2" "game alpha").title :=
  (dedupe_first_seen [sampleRec "1" "Game: Alpha!", sampleRec "2" "game alpha"]).2.2.1
    (sampleRec "2" "game alpha") (by decide)

/-- C4: the App Store CN fallback adapter is consulted exactly when the
raw record count accumulated from adapters 1-3 is strictly below five:
with five or more accumulated records the output is the deduplicated raw
accumulator, independent of the fallback input, and below five the
fallback contribution is appended before deduplication. -/
theorem appstore_fallback_threshold (p : ArrowParser) (now : Int)
    (tapTest tapHot : Except Unit TapResp)
    (appStore : Except Unit (List ASEntry)) :
    (5 ≤ (cnRaw p now tapTest tapHot).length →
      fetch_cn_releases p now tapTest tapHot appStore =
        dedupe (cnRaw p now tapTest tapHot)) ∧
    ((cnRaw p now tapTest tapHot).length < 5 →
      fetch_cn_releases p now tapTest tapHot appStore =
        dedupe (cnRaw p now tapTest tapHot ++ contribAS p now appStore)) := by
  constructor
  · intro h
    simp only [fetch_cn_releases]
    rw [if_neg (by omega)]
  · intro h
    simp only [fetch_cn_releases]
    rw [if_pos h]

/-- Witness: a run accumulating exactly five raw records from the TapTap
sub-sources ignores the fallback input entirely. -/
theorem appstore_fallback_threshold_witness :
    fetch_cn_releases pNone 0 tapFive (Except.error ())
        (Except.ok [asEntry1]) =
      dedupe (cnRaw pNone 0 tapFive (Except.error ())) :=
  (appstore_fallback_threshold pNone 0 tapFive (Except.error ())
    (Except.ok [asEntry1])).1 (by decide)

/-- C5: the TapTap adapters drop every item whose candidate timestamp is
older than 30 days before now, every record the App Store fallback emits
comes from an entry whose parsed release instant is strictly newer than
the 30-day cutoff, and the global adapter maps its first thirty entries
unconditionally, never excluding a record by age. -/
theorem freshness_filter_scope (p : ArrowParser) (now : Int) (useLabel : Bool)
    (item : TapItem) (app : TapApp) (entries : List ASEntry)
    (r : ReleaseRecord) (games : List FtgGame) :
    (item.app = some app → candidate_ts item app < now - 30 * 86400 →
      shapeTapItem p now useLabel item = none) ∧
    (r ∈ processAS p now entries →
      ∃ e ∈ entries, ∃ ts : Int, ∃ rd : String, e.im_releaseDate = some rd ∧
        p (.str rd) = some ts ∧ now - 30 * 86400 < ts) ∧
    fetch_global_releases p now (Except.ok games) =
      (games.take 30).map (shapeGlobal p now) := by
  refine ⟨?_, ?_, rfl⟩
  · intro h1 h2
    unfold shapeTapItem
    rw [h1]
    dsimp only
    rw [if_pos h2]
  · intro hr
    obtain ⟨e, he, -, rd, ts, icon, hrd, hts, hfresh, -, -⟩ := mem_processAS hr
    exact ⟨e, he, ts, rd, hrd, hts, hfresh⟩

/-- Witness: a stale TapTap item is dropped, and the global adapter passes
a record through with no age condition. -/
theorem freshness_filter_scope_witness :
    shapeTapItem pNone 2592002 true tapOld = none ∧
    fetch_global_releases pNone 0 (Except.ok [ftgA]) =
      ([ftgA].take 30).map (shapeGlobal pNone 0) :=
  ⟨(freshness_filter_scope pNone 2592002 true tapOld ⟨9, "old", "", 0⟩ []
      (sampleRec "" "") []).1 rfl (by decide),
   (freshness_filter_scope pNone 0 true tapOld ⟨9, "old", "", 0⟩ []
      (sampleRec "" "") [ftgA]).2.2⟩

/-- C6: an internal failure of any one source adapter is caught and acts
as a zero-record contribution: replacing a failing TapTap sub-source by a
successful empty response, or a failing App Store fallback by an empty
entry list, leaves the whole domestic output unchanged whatever the other
adapters return, and a failing global fetch yields the empty global
track; the pipeline never aborts and the other contributions are
untouched. -/
theorem adapter_failure_isolated (p : ArrowParser) (now : Int)
    (tapTest tapHot : Except Unit TapResp)
    (appStore : Except Unit (List ASEntry)) :
    fetch_cn_releases p now (Except.error ()) tapHot appStore =
      fetch_cn_releases p now tapEmptyOk tapHot appStore ∧
    fetch_cn_releases p now tapTest (Except.error ()) appStore =
      fetch_cn_releases p now tapTest tapEmptyOk appStore ∧
    fetch_cn_releases p now tapTest tapHot (Except.error ()) =
      fetch_cn_releases p now tapTest tapHot (Except.ok []) ∧
    fetch_global_releases p now (Except.error ()) =
      fetch_global_releases p now (Except.ok []) :=
  ⟨rfl, rfl, rfl, rfl⟩

/-- C7 counterexample: the global track is not deduplicated before
merging: two catalog entries whose titles coincide after normalization
both reach the list handed to merge_calendars, so that list is not
pairwise distinct in normalized titles. -/
theorem global_track_dup_counterexample :
    ¬ (fetch_global_releases pNone 0 (Except.ok [ftgDup1, ftgDup2])).Pairwise
        (fun a b => clean_title a.title ≠ clean_title b.title) := by decide

/-- C7 amended: only the domestic track is deduplicated before merging:
the domestic list handed to merge_calendars contains no two records with
equal normalized titles, while the global list is passed as fetched and
may contain such duplicates. -/
theorem cn_track_dedup (p : ArrowParser) (now : Int)
    (tapTest tapHot : Except Unit TapResp)
    (appStore : Except Unit (List ASEntry)) :
    (fetch_cn_releases p now tapTest tapHot appStore).Pairwise
      (fun a b => clean_title a.title ≠ clean_title b.title) :=
  dedupeGo_pairwise [] _

/-- C8 counterexample: one run in which the App Store fallback emits two
records whose ids are the raw store tokens 42 and 9: they carry no
adapter namespace, start with different characters, so no nonempty common
prefix exists for the adapter, and neither starts with any namespaced
prefix the other adapters use; hence no prefix of the id identifies the
source adapter. -/
theorem appstore_raw_id_counterexample :
    ((fetch_cn_releases pOne 0 (Except.error ()) (Except.error ())
        (Except.ok [asEntry1, asEntry2])).map (fun r => (r.source, r.id))) =
      [("AppStore", "42"), ("AppStore", "9")] ∧
    "42".data.take 1 ≠ "9".data.take 1 ∧
    "42".data.take 7 ≠ "cn_tap_".data ∧ "9".data.take 7 ≠ "cn_tap_".data ∧
    "42".data.take 7 ≠ "global_".data ∧ "9".data.take 7 ≠ "global_".data := by
  decide

/-- C8 amended: records of the global adapter have ids prefixed global_,
records of the TapTap adapters have ids prefixed cn_tap_, the 3733
adapter contributes no records, and records of the App Store fallback
reuse the raw im:id of the store entry with no adapter prefix. -/
theorem id_namespacing (p : ArrowParser) (now : Int)
    (tapTest tapHot : Except Unit TapResp) (entries : List ASEntry)
    (g : Except Unit (List FtgGame)) :
    (∀ r ∈ fetch_global_releases p now g, r.id.data.take 7 = "global_".data) ∧
    (∀ r ∈ fetch_cn_releases p now tapTest tapHot (Except.ok entries),
      r.source = "TapTap" → r.id.data.take 7 = "cn_tap_".data) ∧
    (∀ r ∈ fetch_cn_releases p now tapTest tapHot (Except.ok entries),
      r.source = "AppStore" → ∃ e ∈ entries, r.id = e.im_id) := by
  refine ⟨?_, ?_, ?_⟩
  · intro r hr
    cases g with
    | error u => simp [fetch_global_releases] at hr
    | ok games =>
      simp only [fetch_global_releases] at hr
      obtain ⟨gg, -, heq⟩ := List.mem_map.mp hr
      subst heq
      show (("global_" ++ toString gg.id).data).take 7 = "global_".data
      rw [String.data_append,
        show (7 : Nat) = "global_".data.length from rfl]
      exact List.take_left _ _
  · intro r hr hsrc
    rcases mem_fetch_cn hr with h | h | h
    · obtain ⟨item, hi⟩ := mem_contribTap h
      obtain ⟨app, -, -, hid⟩ := shapeTapItem_shape hi
      rw [hid, String.data_append,
        show (7 : Nat) = "cn_tap_".data.length from rfl]
      exact List.take_left _ _
    · obtain ⟨item, hi⟩ := mem_contribTap h
      obtain ⟨app, -, -, hid⟩ := shapeTapItem_shape hi
      rw [hid, String.data_append,
        show (7 : Nat) = "cn_tap_".data.length from rfl]
      exact List.take_left _ _
    · exact absurd ((mem_contribAS h).1.symm.trans hsrc) (by decide)
  · intro r hr hsrc
    rcases mem_fetch_cn hr with h | h | h
    · obtain ⟨item, hi⟩ := mem_contribTap h
      obtain ⟨app, -, hs, -⟩ := shapeTapItem_shape hi
      exact absurd (hs.symm.trans hsrc) (by decide)
    · obtain ⟨item, hi⟩ := mem_contribTap h
      obtain ⟨app, -, hs, -⟩ := shapeTapItem_shape hi
      exact absurd (hs.symm.trans hsrc) (by decide)
    · obtain ⟨-, e, ts, rd, -, -, -, hid, hin⟩ := mem_contribAS h
      exact ⟨e, hin entries rfl, hid⟩

/-- Witness: a concrete global record carries the global_ prefix. -/
theorem id_namespacing_witness :
    (shapeGlobal pNone 0 ftgA).id.data.take 7 = "global_".data :=
  (id_namespacing pNone 0 (Except.error ()) (Except.error ()) []
    (Except.ok [ftgA])).1 (shapeGlobal pNone 0 ftgA) (by decide)

/-- C9: the relative-time handling of the domestic classifieds adapter
supports a partial-time mode and a short-date mode: a bare HH:mm string
(a colon, no hyphen) yields that time, seconds zeroed, appended to the
current canonical date, and a short MM-DD string (a hyphen, at most five
characters) yields that date appended to the current canonical year with
the fixed time 10:00:00. -/
theorem kaifu_time_modes (now : Int) (time_str : String) :
    (time_str.data.contains ':' = true → time_str.data.contains '-' = false →
      kaifu_time now time_str = nowDateStr now ++ " " ++ time_str ++ ":00") ∧
    (time_str.data.contains '-' = true → time_str.length ≤ 5 →
      kaifu_time now time_str =
        nowYearStr now ++ "-" ++ time_str ++ " 10:00:00") := by
  constructor
  · intro h1 h2
    have hc : (time_str.data.contains ':' && !time_str.data.contains '-') = true := by
      rw [h1, h2]
      rfl
    unfold kaifu_time
    rw [if_pos hc]
  · intro h1 h2
    have hc : ¬ (time_str.data.contains ':' && !time_str.data.contains '-') = true := by
      rw [h1]
      simp
    unfold kaifu_time
    rw [if_neg hc, if_pos h1, if_pos h2]

/-- Witness: the two modes at 10:30 and 02-18 with the epoch instant as
now. -/
theorem kaifu_time_modes_witness :
    kaifu_time 0 "10:30" = nowDateStr 0 ++ " " ++ "10:30" ++ ":00" ∧
    kaifu_time 0 "02-18" = nowYearStr 0 ++ "-" ++ "02-18" ++ " 10:00:00" :=
  ⟨(kaifu_time_modes 0 "10:30").1 (by decide) (by decide),
   (kaifu_time_modes 0 "02-18").2 (by decide) (by decide)⟩

/-- C10: the 3733 classifieds adapter contributes zero records in every
run, since its body applies the unbound name BeautifulSoup and the
resulting NameError is caught by the adapter-level handler; the domestic
track is therefore populated only by the TapTap adapters and, when the
threshold triggers, the App Store fallback. -/
theorem adapter3733_contributes_nothing (p : ArrowParser) (now : Int)
    (tapTest tapHot : Except Unit TapResp)
    (appStore : Except Unit (List ASEntry)) :
    fetch3733 = Except.error () ∧ contrib3733 = [] ∧
    ∀ r ∈ fetch_cn_releases p now tapTest tapHot appStore,
      r.source = "TapTap" ∨ r.source = "AppStore" := by
  refine ⟨rfl, rfl, ?_⟩
  intro r hr
  rcases mem_fetch_cn hr with h | h | h
  · obtain ⟨item, hi⟩ := mem_contribTap h
    obtain ⟨app, -, hs, -⟩ := shapeTapItem_shape hi
    exact Or.inl hs
  · obtain ⟨item, hi⟩ := mem_contribTap h
    obtain ⟨app, -, hs, -⟩ := shapeTapItem_shape hi
    exact Or.inl hs
  · exact Or.inr (mem_contribAS h).1

/-- Witness: in a run where the fallback fires, the concrete record it
produces is provenance-tagged AppStore, never 3733. -/
theorem adapter3733_contributes_nothing_witness :
    (mkASRec pOne 0 asEntry1 "2025-01-01" "i").source = "TapTap" ∨
    (mkASRec pOne 0 asEntry1 "2025-01-01" "i").source = "AppStore" :=
  (adapter3733_contributes_nothing pOne 0 (Except.error ()) (Except.error ())
    (Except.ok [asEntry1])).2.2 _ (by decide)

example : formatShanghai 0 = "1970-01-01 08:00:00" := by decide
example : formatShanghai 1700000000 = "2023-11-15 06:13:20" := by decide
example : clean_title "Game: Alpha!" = "gamealpha" := by decide
example : clean_title "a_b" = "a_b" := by decide
example : spec_clean_title "a_b" = "ab" := by decide
example : hasSub "删档" "删档测试x" = true := by decide
example : kaifu_time 0 "10:30" = "1970-01-01 10:30:00" := by decide
example : kaifu_time 0 "02-18" = "1970-02-18 10:00:00" := by decide
